import Mathlib

/-!
Shallow embedding of `src/bot.py` (Snipe Checks bot).

Conventions of the embedding:
* Python floats are modelled as exact rationals (`ℚ`); the program performs
  only the arithmetic written in the source, no rounding step exists there.
* The two MongoDB collections (`picks`, `wallets`) are modelled as lists in
  insertion order; `find` filters, `find_one` is `List.find?`, `insert_one`
  appends.  The unique index on `(chat_id, mint_address)` is stated as an
  invariant (`UniquePicks`).
* The HTTP market-data reads are oracles passed as arguments:
  `sol_price : ℚ` (one fetch per handler call, as in the code),
  `closeOf : String → ℚ` for `get_latest_close_price_in_sol`, and
  `balancesOf : String → List BalanceInfo` for `get_wallet_balances`.
* Each Telegram handler becomes a pure function from its inputs and the
  stored state to a reply value and the new state.
-/

/-- Characters accepted by the character class `[1-9A-HJ-NP-Za-km-z]`
of `is_valid_solana_address` (base-58 alphabet). -/
def isBase58Char (c : Char) : Bool :=
  ('1' ≤ c && c ≤ '9') || ('A' ≤ c && c ≤ 'H') || ('J' ≤ c && c ≤ 'N') ||
  ('P' ≤ c && c ≤ 'Z') || ('a' ≤ c && c ≤ 'k') || ('m' ≤ c && c ≤ 'z')

/-- Semantics of Python's `bool(re.match(r'^[1-9A-HJ-NP-Za-km-z]+$', s))`.
In Python (without `re.MULTILINE`) the anchor `$` matches at the end of the
string or just before a newline that ends the string, so the pattern also
accepts a base-58 body followed by one trailing newline. -/
def pyMatchBase58Line (s : List Char) : Bool :=
  let t := if s.getLast? = some '\n' then s.dropLast else s
  !t.isEmpty && t.all isBase58Char

/-- Model of `is_valid_solana_address` (bot.py lines 84-88). -/
def is_valid_solana_address (address : String) : Bool :=
  if address.length = 43 ∨ address.length = 44 then
    pyMatchBase58Line address.data
  else
    false

/-- ASCII whitespace stripped by Python's `str.strip()` (the handlers only
ever strip message text, for which the ASCII cases are the relevant ones). -/
def isPyWhitespace (c : Char) : Bool :=
  c = ' ' || c = '\t' || c = '\n' || c = '\r' || c = '\x0b' || c = '\x0c'

/-- Model of Python's `str.strip()`. -/
def pyStrip (s : String) : String :=
  ⟨((s.data.dropWhile isPyWhitespace).reverse.dropWhile isPyWhitespace).reverse⟩

/-- A document of the `picks` collection (one shilled CA). -/
structure Pick where
  chat_id : Int
  user_id : Int
  username : String
  mint_address : String
  cost_basis_usd : ℚ
  num_tokens : ℚ
  created_at : Nat
deriving Repr, DecidableEq

/-- A document of the `wallets` collection (one Sniper Bowl wallet). -/
structure WalletEntry where
  chat_id : Int
  user_id : Int
  username : String
  wallet_address : String
  start_usd_value : ℚ
  created_at : Nat
deriving Repr, DecidableEq

/-- One element of a `get_wallet_balances` response: the fields
`balance` and `value` read by `sniper_leaderboard_command`. -/
structure BalanceInfo where
  balance : ℚ
  value : ℚ
deriving Repr, DecidableEq

/-- Reply of `handle_contract_address` (bot.py lines 335-387). -/
inductive EntryReply where
  /-- The message text is not a valid address: `fallback_echo` runs. -/
  | echoed (text : String)
  /-- "This CA was already shilled here". -/
  | alreadyShilled
  /-- "Error: Could not fetch SOL price" (`sol_price <= 0`). -/
  | solPriceUnavailable
  /-- "Error: Invalid close price" (`close_price_sol <= 0`). -/
  | invalidClosePrice
  /-- The pick was inserted. -/
  | inserted (p : Pick)
deriving Repr, DecidableEq

/-- Model of `handle_contract_address`: the realization of
`record_token_position`.  Takes the market oracles, the message context,
the stored `picks` collection, and returns the reply and the new
collection. -/
def handle_contract_address (sol_price : ℚ) (closeOf : String → ℚ)
    (chat_id user_id : Int) (username message_text : String)
    (now : Nat) (picks : List Pick) : EntryReply × List Pick :=
  let text := pyStrip message_text
  if is_valid_solana_address text = false then
    (.echoed message_text, picks)
  else
    let mint_address := text
    match picks.find? (fun q => q.chat_id == chat_id && q.mint_address == mint_address) with
    | some _ => (.alreadyShilled, picks)
    | none =>
      if sol_price ≤ 0 then (.solPriceUnavailable, picks)
      else
        let close_price_sol := closeOf mint_address
        if close_price_sol ≤ 0 then (.invalidClosePrice, picks)
        else
          let p : Pick :=
            { chat_id := chat_id, user_id := user_id, username := username,
              mint_address := mint_address,
              cost_basis_usd := 1/2 * sol_price,
              num_tokens := 1/2 / close_price_sol,
              created_at := now }
          (.inserted p, picks ++ [p])

/-- Reply of `register_wallet_command` (bot.py lines 183-230). -/
inductive RegisterReply where
  /-- "Usage: /register_wallet <solana_wallet_address>". -/
  | usage
  /-- "Invalid Solana address". -/
  | invalidAddress
  /-- "This wallet is already registered in this chat". -/
  | alreadyRegistered
  /-- "Could not fetch SOL price" (`sol_price <= 0`). -/
  | solPriceUnavailable
  /-- The wallet was registered. -/
  | registered (w : WalletEntry)
deriving Repr, DecidableEq

/-- Model of `register_wallet_command`: the realization of
`register_wallet`. -/
def register_wallet_command (sol_price : ℚ) (chat_id user_id : Int)
    (username : String) (args : List String) (now : Nat)
    (wallets : List WalletEntry) : RegisterReply × List WalletEntry :=
  match args with
  | [] => (.usage, wallets)
  | arg :: _ =>
    let wallet_address := pyStrip arg
    if is_valid_solana_address wallet_address = false then
      (.invalidAddress, wallets)
    else
      match wallets.find? (fun w => w.chat_id == chat_id && w.wallet_address == wallet_address) with
      | some _ => (.alreadyRegistered, wallets)
      | none =>
        if sol_price ≤ 0 then (.solPriceUnavailable, wallets)
        else
          let w : WalletEntry :=
            { chat_id := chat_id, user_id := user_id, username := username,
              wallet_address := wallet_address,
              start_usd_value := 1/2 * sol_price,
              created_at := now }
          (.registered w, wallets ++ [w])

/-- Model of Python's stable `list.sort(key=..., reverse=True)`: a stable
sort placing larger keys first.  `List.mergeSort` is a stable sort, and a
stable sort for a total preorder is extensionally unique, so this is the
function computed by the Python call. -/
def pySortDescBy (key : α → ℚ) (l : List α) : List α :=
  l.mergeSort (fun a b => decide (key b ≤ key a))

/-- Model of `enumerate(xs, start=1)` as used on the sorted, truncated
leaderboard rows. -/
def withRanks (l : List α) : List (Nat × α) :=
  (List.range' 1 l.length).zip l

/-- The ranking pipeline shared by both leaderboard commands:
stable descending sort on the key, truncation to the top 10, ranks from 1. -/
def leaderboardRank (key : α → ℚ) (l : List α) : List (Nat × α) :=
  withRanks ((pySortDescBy key l).take 10)

/-- One entry of `data_list` in `leaderboard_command` (bot.py lines 160-166). -/
structure TokenRow where
  username : String
  mint : String
  cost_basis_usd : ℚ
  current_price_usd : ℚ
  pnl : ℚ
deriving Repr, DecidableEq

/-- Valuation of one stored pick in `leaderboard_command`
(bot.py lines 149-166). -/
def tokenRow (sol_price : ℚ) (closeOf : String → ℚ) (pick : Pick) : TokenRow :=
  let current_close_sol := closeOf pick.mint_address
  let current_token_price_usd := current_close_sol * sol_price
  let current_value_usd := pick.num_tokens * current_token_price_usd
  { username := pick.username
    mint := pick.mint_address
    cost_basis_usd := pick.cost_basis_usd
    current_price_usd := current_token_price_usd
    pnl := current_value_usd - pick.cost_basis_usd }

/-- Reply of a leaderboard command, generic in the row type. -/
inductive LeaderboardReply (ρ : Type) where
  /-- "Could not fetch SOL price. Leaderboard unavailable." -/
  | solPriceUnavailable
  /-- "No CA picks found." / "No wallets here." -/
  | empty
  /-- The rendered ranked list. -/
  | board (items : List (Nat × ρ))
deriving Repr, DecidableEq

/-- Model of `leaderboard_command` (bot.py lines 136-180): the realization
of `compute_token_leaderboard`. -/
def leaderboard_command (sol_price : ℚ) (closeOf : String → ℚ) (chat_id : Int)
    (picks : List Pick) : LeaderboardReply TokenRow :=
  if sol_price ≤ 0 then .solPriceUnavailable
  else
    let all_picks := picks.filter (fun p => p.chat_id == chat_id)
    if all_picks.isEmpty then .empty
    else
      .board (leaderboardRank (fun r => r.pnl) (all_picks.map (tokenRow sol_price closeOf)))

/-- One entry of `results` in `sniper_leaderboard_command`
(bot.py lines 261-266). -/
structure WalletRow where
  username : String
  wallet_address : String
  net_worth_usd : ℚ
  pnl_usd : ℚ
deriving Repr, DecidableEq

/-- Valuation of one registered wallet in `sniper_leaderboard_command`
(bot.py lines 246-266). -/
def walletRow (balancesOf : String → List BalanceInfo) (w : WalletEntry) : WalletRow :=
  let balances := balancesOf w.wallet_address
  let total_usd := balances.foldl (fun acc t => acc + t.balance * t.value) 0
  { username := w.username
    wallet_address := w.wallet_address
    net_worth_usd := total_usd
    pnl_usd := total_usd - w.start_usd_value }

/-- Model of `sniper_leaderboard_command` (bot.py lines 233-280): the
realization of `compute_wallet_leaderboard`. -/
def sniper_leaderboard_command (sol_price : ℚ) (balancesOf : String → List BalanceInfo)
    (chat_id : Int) (wallets : List WalletEntry) : LeaderboardReply WalletRow :=
  if sol_price ≤ 0 then .solPriceUnavailable
  else
    let all_wallets := wallets.filter (fun w => w.chat_id == chat_id)
    if all_wallets.isEmpty then .empty
    else
      .board (leaderboardRank (fun r => r.pnl_usd) (all_wallets.map (walletRow balancesOf)))

/-- Valuation of one pick inside `share_command` (bot.py lines 301-310):
the same arithmetic as `tokenRow`, recomputed there as in the code. -/
def pickPnl (sol_price : ℚ) (closeOf : String → ℚ) (pick : Pick) : ℚ :=
  let current_close_sol := closeOf pick.mint_address
  let current_price_usd := current_close_sol * sol_price
  let current_value_usd := pick.num_tokens * current_price_usd
  current_value_usd - pick.cost_basis_usd

/-- Rounding to an integer, ties to even: the rounding Python's fixed-point
float formatting performs (idealized over exact rationals). -/
def roundHalfEven (q : ℚ) : ℤ :=
  let f := ⌊q⌋
  let r := q - (f : ℚ)
  if r < 1/2 then f
  else if 1/2 < r then f + 1
  else if f % 2 = 0 then f else f + 1

/-- Comma-grouping helper: processes the reversed digit list, emitting a
comma after every third digit when more digits follow. -/
def commaRev : List Char → Nat → List Char
  | [], _ => []
  | c :: cs, k =>
    if k = 2 then c :: (if cs.isEmpty then [] else ',' :: commaRev cs 0)
    else c :: commaRev cs (k + 1)

/-- Model of Python's format spec `:,.2f` applied to a nonnegative amount:
two decimals, ties to even, thousands separators. -/
def formatCommas2 (q : ℚ) : String :=
  let cents := (roundHalfEven (q * 100)).toNat
  let intDigits := (toString (cents / 100)).data
  let frac := cents % 100
  String.mk ((commaRev intDigits.reverse 0).reverse)
    ++ "." ++ (if frac < 10 then "0" else "") ++ toString frac

/-- Rendering of `{sign}${abs:,.2f}` with `sign = "+" if x >= 0 else "-"`,
as built in `leaderboard_command` and `share_command`. -/
def signedMoney (q : ℚ) : String :=
  (if 0 ≤ q then "+" else "-") ++ "$" ++ formatCommas2 |q|

/-- An apostrophe as a one-character string. -/
def apos : String := String.mk [Char.ofNat 39]

/-- Characters `urllib.parse.quote` keeps literally with its default
`safe='/'`: the RFC 3986 unreserved characters and the slash. -/
def isQuoteSafe (c : Char) : Bool :=
  ('A' ≤ c && c ≤ 'Z') || ('a' ≤ c && c ≤ 'z') || ('0' ≤ c && c ≤ '9') ||
  c = '_' || c = '.' || c = '-' || c = '~' || c = '/'

/-- Uppercase hexadecimal digit, as `quote` emits. -/
def hexUpper (n : Nat) : Char :=
  if n < 10 then Char.ofNat ('0'.toNat + n) else Char.ofNat ('A'.toNat + (n - 10))

/-- UTF-8 encoding of one scalar value, the byte basis of `quote`'s
percent-escapes. -/
def utf8Bytes (c : Char) : List Nat :=
  let n := c.toNat
  if n < 128 then [n]
  else if n < 2048 then [192 + n / 64, 128 + n % 64]
  else if n < 65536 then [224 + n / 4096, 128 + (n / 64) % 64, 128 + n % 64]
  else [240 + n / 262144, 128 + (n / 4096) % 64, 128 + (n / 64) % 64, 128 + n % 64]

/-- Model of `urllib.parse.quote` with its default `safe='/'`: every
character outside the safe set is replaced by the percent-escapes of its
UTF-8 bytes. -/
def pyQuote (s : String) : String :=
  String.mk (s.data.flatMap (fun c =>
    if isQuoteSafe c then [c]
    else (utf8Bytes c).flatMap (fun b => ['%', hexUpper (b / 16), hexUpper (b % 16)])))

/-- RFC 3986 reserved characters that may carry structure in a URL query
value (every reserved character except `/`, which RFC 3986 permits
literally inside a query), together with space, quotes and newline. -/
def queryReservedChars : List Char :=
  [' ', '!', '"', '#', '$', '&', Char.ofNat 39, '(', ')', '*', '+', ',',
   ':', ';', '=', '?', '@', '[', ']', '<', '>', '\n']

/-- Reply of `share_command` (bot.py lines 283-332). -/
inductive ShareReply where
  /-- "No CA picks found for you here." -/
  | noPositions
  /-- "Error fetching SOL price." -/
  | solPriceUnavailable
  /-- The share link with the percent-encoded tweet text. -/
  | link (url : String)
deriving Repr, DecidableEq

/-- Model of `share_command`: the realization of `build_share_text`. -/
def share_command (sol_price : ℚ) (closeOf : String → ℚ) (chat_id user_id : Int)
    (username : String) (picks : List Pick) : ShareReply :=
  let user_picks := picks.filter (fun p => p.chat_id == chat_id && p.user_id == user_id)
  if user_picks.isEmpty then .noPositions
  else if sol_price ≤ 0 then .solPriceUnavailable
  else
    let lines := user_picks.map (fun pick =>
      pick.mint_address ++ " => " ++ signedMoney (pickPnl sol_price closeOf pick))
    let total_pnl := user_picks.foldl (fun acc pick => acc + pickPnl sol_price closeOf pick) 0
    let tweet_text := username ++ apos ++ "s Picks (Chat " ++ toString chat_id ++ "):\n\n"
      ++ String.intercalate "\n" lines
      ++ "\n\nTotal PnL: " ++ signedMoney total_pnl ++ "\nShared via #SnipeChecksBot"
    .link ("https://twitter.com/intent/tweet?text=" ++ pyQuote tweet_text)

/-- Uniqueness invariant enforced by the `chat_mint_unique_index` of the
`picks` collection (bot.py lines 49-53). -/
def UniquePicks (picks : List Pick) : Prop :=
  picks.Pairwise (fun a b => ¬(a.chat_id = b.chat_id ∧ a.mint_address = b.mint_address))

/-- Sortedness of the stable descending sort: along the result the key is
non-increasing. -/
theorem pySortDescBy_pairwise (key : α → ℚ) (l : List α) :
    (pySortDescBy key l).Pairwise (fun a b => key b ≤ key a) := by
  have h := @List.sorted_mergeSort α (fun a b : α => decide (key b ≤ key a))
      (fun a b c hab hbc => by
        simp only [decide_eq_true_eq] at *
        exact le_trans hbc hab)
      (fun a b => by
        rcases le_total (key b) (key a) with h | h <;> simp [h]) l
  exact h.imp (fun hab => by simpa using hab)

/-- The sort loses no element: lengths agree. -/
theorem pySortDescBy_length (key : α → ℚ) (l : List α) :
    (pySortDescBy key l).length = l.length := by
  simp [pySortDescBy]

/-- Stability of the sort: elements picked out by a predicate on which the
key is constant (tied elements) appear in the sorted list exactly as they
appear in the input. -/
theorem pySortDescBy_filter_eq (key : α → ℚ) (l : List α) (p : α → Bool)
    (hp : ∀ a b, p a = true → p b = true → key b ≤ key a) :
    (pySortDescBy key l).filter p = l.filter p := by
  have htrans : ∀ a b c : α, decide (key b ≤ key a) = true →
      decide (key c ≤ key b) = true → decide (key c ≤ key a) = true := by
    intro a b c hab hbc
    simp only [decide_eq_true_eq] at *
    exact le_trans hbc hab
  have htotal : ∀ a b : α, (decide (key b ≤ key a) || decide (key a ≤ key b)) = true := by
    intro a b
    rcases le_total (key b) (key a) with h | h <;> simp [h]
  have hcp : (l.filter p).Pairwise (fun a b => decide (key b ≤ key a) = true) :=
    List.pairwise_of_forall_mem_list (fun a ha b hb => by
      simp only [decide_eq_true_eq]
      exact hp a b (List.of_mem_filter ha) (List.of_mem_filter hb))
  have hsub : (l.filter p).Sublist (pySortDescBy key l) :=
    List.sublist_mergeSort htrans htotal hcp (List.filter_sublist l)
  have hsub2 := List.Sublist.filter p hsub
  have hself : (l.filter p).filter p = l.filter p :=
    List.filter_eq_self.mpr (fun a ha => List.of_mem_filter ha)
  rw [hself] at hsub2
  have hperm : ((pySortDescBy key l).filter p).Perm (l.filter p) :=
    List.Perm.filter p (List.mergeSort_perm l _)
  exact (hsub2.eq_of_length hperm.length_eq.symm).symm

/-- Ranks attached by `withRanks` are the consecutive integers from 1. -/
theorem withRanks_map_fst (l : List α) :
    (withRanks l).map Prod.fst = List.range' 1 l.length :=
  List.map_fst_zip _ _ (by simp)

/-- Dropping the ranks recovers the ranked list. -/
theorem withRanks_map_snd (l : List α) : (withRanks l).map Prod.snd = l :=
  List.map_snd_zip _ _ (by simp)

/-- Attaching ranks keeps the length. -/
theorem withRanks_length (l : List α) : (withRanks l).length = l.length := by
  simp [withRanks]

/-- The rows of the ranked output are the sorted rows truncated to ten. -/
theorem leaderboardRank_map_snd (key : α → ℚ) (l : List α) :
    (leaderboardRank key l).map Prod.snd = (pySortDescBy key l).take 10 :=
  withRanks_map_snd _

/-- The ranked output carries the ranks 1, 2, ... consecutively. -/
theorem leaderboardRank_map_fst (key : α → ℚ) (l : List α) :
    (leaderboardRank key l).map Prod.fst = List.range' 1 (leaderboardRank key l).length := by
  simp [leaderboardRank, withRanks_map_fst, withRanks_length]

/-- The ranked output holds at most ten entries. -/
theorem leaderboardRank_length_le (key : α → ℚ) (l : List α) :
    (leaderboardRank key l).length ≤ 10 := by
  simp only [leaderboardRank, withRanks_length, List.length_take]
  omega

/-- The ranked output is sorted with non-increasing key. -/
theorem leaderboardRank_snd_pairwise (key : α → ℚ) (l : List α) :
    ((leaderboardRank key l).map Prod.snd).Pairwise (fun a b => key b ≤ key a) := by
  rw [leaderboardRank_map_snd]
  exact List.Pairwise.sublist (List.take_sublist _ _) (pySortDescBy_pairwise key l)

/-- Stability through truncation: the tied elements appearing in the output
are an initial segment, in input order, of the tied elements of the input. -/
theorem leaderboardRank_filter_take (key : α → ℚ) (l : List α) (p : α → Bool)
    (hp : ∀ a b, p a = true → p b = true → key b ≤ key a) :
    ((leaderboardRank key l).map Prod.snd).filter p
      = (l.filter p).take (((leaderboardRank key l).map Prod.snd).filter p).length := by
  rw [leaderboardRank_map_snd]
  calc ((pySortDescBy key l).take 10).filter p
      = (((pySortDescBy key l).take 10).filter p ++ ((pySortDescBy key l).drop 10).filter p).take
          ((((pySortDescBy key l).take 10).filter p).length) := (List.take_left _ _).symm
    _ = ((pySortDescBy key l).filter p).take
          ((((pySortDescBy key l).take 10).filter p).length) := by
        rw [← List.filter_append, List.take_append_drop]
    _ = (l.filter p).take ((((pySortDescBy key l).take 10).filter p).length) := by
        rw [pySortDescBy_filter_eq key l p hp]

/-- Characterization of a successful insert by `handle_contract_address`:
it happens exactly when the stripped text is a valid address, no pick with
that `(chat_id, mint_address)` exists, both prices are positive, and then
the stored pick carries the frozen entry values and is appended. -/
theorem handle_inserted_iff (sol_price : ℚ) (closeOf : String → ℚ)
    (chat_id user_id : Int) (username message_text : String) (now : Nat)
    (picks picks' : List Pick) (p : Pick) :
    handle_contract_address sol_price closeOf chat_id user_id username message_text now picks
        = (.inserted p, picks') ↔
      (is_valid_solana_address (pyStrip message_text) = true
        ∧ picks.find? (fun q => q.chat_id == chat_id && q.mint_address == pyStrip message_text)
            = none
        ∧ 0 < sol_price
        ∧ 0 < closeOf (pyStrip message_text)
        ∧ p = { chat_id := chat_id, user_id := user_id, username := username,
                mint_address := pyStrip message_text,
                cost_basis_usd := 1/2 * sol_price,
                num_tokens := 1/2 / closeOf (pyStrip message_text),
                created_at := now }
        ∧ picks' = picks ++ [p]) := by
  unfold handle_contract_address
  cases hv : is_valid_solana_address (pyStrip message_text) with
  | false => simp [hv]
  | true =>
    simp only [hv, Bool.true_eq_false, if_false]
    cases hf : picks.find? (fun q => q.chat_id == chat_id && q.mint_address == pyStrip message_text) with
    | some q => simp [hf]
    | none =>
      simp only [hf]
      by_cases hs : sol_price ≤ 0
      · simp [hs, not_lt.mpr hs]
      · by_cases hc : closeOf (pyStrip message_text) ≤ 0
        · simp [hs, hc, not_lt.mpr hc]
        · simp only [if_neg hs, if_neg hc, Prod.mk.injEq, EntryReply.inserted.injEq]
          constructor
          · rintro ⟨hp, hps⟩
            subst hp
            subst hps
            simp [not_le.mp hs, not_le.mp hc]
          · rintro ⟨-, -, -, -, hp, hps⟩
            subst hp
            subst hps
            exact ⟨rfl, rfl⟩

/-- Append-only property of the pick store: a call of
`handle_contract_address` leaves every previously stored record in place
and unchanged (the new state starts with the old list). -/
theorem handle_state_take (sol_price : ℚ) (closeOf : String → ℚ)
    (chat_id user_id : Int) (username message_text : String) (now : Nat)
    (picks : List Pick) :
    ((handle_contract_address sol_price closeOf chat_id user_id username
        message_text now picks).2).take picks.length = picks := by
  unfold handle_contract_address
  cases hv : is_valid_solana_address (pyStrip message_text) with
  | false => simp [hv]
  | true =>
    cases hf : picks.find?
        (fun q => q.chat_id == chat_id && q.mint_address == pyStrip message_text) with
    | some q => simp [hv, hf]
    | none =>
      by_cases hs : sol_price ≤ 0
      · simp [hv, hf, hs]
      · by_cases hc : closeOf (pyStrip message_text) ≤ 0
        · simp [hv, hf, hs, hc]
        · simp [hv, hf, hs, hc, List.take_left]

/-- C1: a successful token-position entry (a `handle_contract_address` call
that inserts) happens with reference price and trade price positive, and the
persisted pick carries `cost_basis_usd = 0.5 * reference_price` and
`num_tokens = 0.5 / trade_price`; it is appended to the store and no later
entry operation alters it (frozen at creation). -/
theorem c1_token_entry_formulas (sol_price : ℚ) (closeOf : String → ℚ)
    (chat_id user_id : Int) (username message_text : String) (now : Nat)
    (picks picks' : List Pick) (p : Pick)
    (h : handle_contract_address sol_price closeOf chat_id user_id username
          message_text now picks = (.inserted p, picks')) :
    0 < sol_price
      ∧ 0 < closeOf (pyStrip message_text)
      ∧ p.cost_basis_usd = 1/2 * sol_price
      ∧ p.num_tokens = 1/2 / closeOf (pyStrip message_text)
      ∧ picks' = picks ++ [p]
      ∧ (∀ (sol2 : ℚ) (closeOf2 : String → ℚ) (c2 u2 : Int) (un2 t2 : String)
          (n2 : Nat),
          ((handle_contract_address sol2 closeOf2 c2 u2 un2 t2 n2 picks').2).take
              picks'.length = picks') := by
  obtain ⟨hv, hf, hs, hc, hp, hps⟩ :=
    (handle_inserted_iff sol_price closeOf chat_id user_id username message_text
      now picks picks' p).mp h
  subst hp
  refine ⟨hs, hc, rfl, rfl, hps, ?_⟩
  intro sol2 closeOf2 c2 u2 un2 t2 n2
  exact handle_state_take sol2 closeOf2 c2 u2 un2 t2 n2 picks'

/-- A 43-character base-58 address used as concrete input. -/
def c1addr : String := String.mk (List.replicate 43 '1')

/-- The pick created for `c1addr` at reference price 150 and trade price
1/10000. -/
def c1pick : Pick :=
  { chat_id := 1, user_id := 2, username := "u", mint_address := pyStrip c1addr,
    cost_basis_usd := 1/2 * 150, num_tokens := 1/2 / ((1:ℚ)/10000),
    created_at := 0 }

/-- Witness for C1 at a concrete input. -/
theorem c1_token_entry_formulas_witness :
    handle_contract_address 150 (fun _ => 1/10000) 1 2 "u" c1addr 0 []
        = (.inserted c1pick, [c1pick])
      ∧ c1pick.cost_basis_usd = 1/2 * 150
      ∧ c1pick.num_tokens = 1/2 / ((1 : ℚ)/10000)
      ∧ ((handle_contract_address 150 (fun _ => 1/10000) 1 2 "u" c1addr 0
            [c1pick]).2).take [c1pick].length = [c1pick] := by
  have hpk : c1pick =
      { chat_id := 1, user_id := 2, username := "u",
        mint_address := pyStrip c1addr,
        cost_basis_usd := 1/2 * 150,
        num_tokens := 1/2 / ((fun _ : String => (1:ℚ)/10000) (pyStrip c1addr)),
        created_at := 0 } := rfl
  have h : handle_contract_address 150 (fun _ => 1/10000) 1 2 "u" c1addr 0 []
      = (.inserted c1pick, [c1pick]) :=
    (handle_inserted_iff 150 (fun _ => 1/10000) 1 2 "u" c1addr 0 [] [c1pick]
      c1pick).mpr ⟨by decide, rfl, by norm_num, by norm_num, hpk, by simp⟩
  have hc := c1_token_entry_formulas 150 (fun _ => 1/10000) 1 2 "u" c1addr 0
    [] [c1pick] c1pick h
  exact ⟨h, hc.2.2.1, hc.2.2.2.1,
    hc.2.2.2.2.2 150 (fun _ => 1/10000) 1 2 "u" c1addr 0⟩

/-- C4: when the reference price read returns 0 or less, both the token
entry and the wallet registration abort without any ledger write; on the
otherwise-valid path they return the price-unavailable reply; and the token
entry also aborts without a write when the trade price is 0 or less. -/
theorem c4_market_unavailable_no_writes (sol : ℚ) (closeOf : String → ℚ)
    (chat user : Int) (uname text : String) (now : Nat) (picks : List Pick)
    (args : List String) (wallets : List WalletEntry) :
    (sol ≤ 0 →
      ((handle_contract_address sol closeOf chat user uname text now picks).2 = picks
        ∧ (register_wallet_command sol chat user uname args now wallets).2 = wallets
        ∧ (is_valid_solana_address (pyStrip text) = true →
            picks.find? (fun q => q.chat_id == chat && q.mint_address == pyStrip text)
                = none →
            handle_contract_address sol closeOf chat user uname text now picks
              = (.solPriceUnavailable, picks))
        ∧ (∀ a rest, args = a :: rest →
            is_valid_solana_address (pyStrip a) = true →
            wallets.find? (fun w => w.chat_id == chat && w.wallet_address == pyStrip a)
                = none →
            register_wallet_command sol chat user uname args now wallets
              = (.solPriceUnavailable, wallets))))
      ∧ (0 < sol → closeOf (pyStrip text) ≤ 0 →
          is_valid_solana_address (pyStrip text) = true →
          picks.find? (fun q => q.chat_id == chat && q.mint_address == pyStrip text)
              = none →
          handle_contract_address sol closeOf chat user uname text now picks
            = (.invalidClosePrice, picks)) := by
  constructor
  · intro hs
    refine ⟨?_, ?_, ?_, ?_⟩
    · unfold handle_contract_address
      cases hv : is_valid_solana_address (pyStrip text) with
      | false => simp [hv]
      | true =>
        cases hf : picks.find?
            (fun q => q.chat_id == chat && q.mint_address == pyStrip text) with
        | some q => simp [hv, hf]
        | none => simp [hv, hf, hs]
    · unfold register_wallet_command
      cases args with
      | nil => simp
      | cons a rest =>
        cases hv : is_valid_solana_address (pyStrip a) with
        | false => simp [hv]
        | true =>
          cases hf : wallets.find?
              (fun w => w.chat_id == chat && w.wallet_address == pyStrip a) with
          | some w => simp [hv, hf]
          | none => simp [hv, hf, hs]
    · intro hv hf
      unfold handle_contract_address
      simp [hv, hf, hs]
    · rintro a rest rfl hv hf
      unfold register_wallet_command
      simp [hv, hf, hs]
  · intro hs hc hv hf
    unfold handle_contract_address
    simp [hv, hf, hc, not_le.mpr hs]

/-- Witness for C4 at concrete inputs: reference price 0 for the first
part, reference price 150 with trade price 0 for the second. -/
theorem c4_market_unavailable_no_writes_witness :
    ((0:ℚ) ≤ 0)
      ∧ (handle_contract_address 0 (fun _ => 1) 1 2 "u" c1addr 0 []).2 = []
      ∧ (register_wallet_command 0 1 2 "u" [c1addr] 0 []).2 = []
      ∧ handle_contract_address 0 (fun _ => 1) 1 2 "u" c1addr 0 []
          = (.solPriceUnavailable, [])
      ∧ register_wallet_command 0 1 2 "u" [c1addr] 0 []
          = (.solPriceUnavailable, [])
      ∧ handle_contract_address 150 (fun _ => 0) 1 2 "u" c1addr 0 []
          = (.invalidClosePrice, []) := by
  have h0 := c4_market_unavailable_no_writes 0 (fun _ => 1) 1 2 "u" c1addr 0 []
    [c1addr] []
  have h0' := h0.1 le_rfl
  have h1 := c4_market_unavailable_no_writes 150 (fun _ => 0) 1 2 "u" c1addr 0 []
    [c1addr] []
  exact ⟨le_rfl, h0'.1, h0'.2.1, h0'.2.2.1 (by decide) rfl,
    h0'.2.2.2 c1addr [] rfl (by decide) rfl,
    h1.2 (by norm_num) le_rfl (by decide) rfl⟩

/-- C5: after a successful insert for `(chat_id, mint)`, a second submission
of the same mint in the same chat answers `alreadyShilled` and leaves the
store unchanged; moreover every `handle_contract_address` call (the only
writer of the picks store) preserves the uniqueness invariant on
`(chat_id, mint_address)`. -/
theorem c5_duplicate_key_and_uniqueness (sol sol2 : ℚ)
    (closeOf closeOf2 : String → ℚ) (chat user user2 : Int)
    (uname uname2 text text2 : String) (now now2 : Nat)
    (picks picks' : List Pick) (p : Pick)
    (h : handle_contract_address sol closeOf chat user uname text now picks
          = (.inserted p, picks'))
    (h2 : pyStrip text2 = pyStrip text) :
    handle_contract_address sol2 closeOf2 chat user2 uname2 text2 now2 picks'
        = (.alreadyShilled, picks')
      ∧ (∀ (s3 : ℚ) (c3 : String → ℚ) (ch3 u3 : Int) (un3 t3 : String)
          (n3 : Nat) (ps3 : List Pick), UniquePicks ps3 →
          UniquePicks (handle_contract_address s3 c3 ch3 u3 un3 t3 n3 ps3).2) := by
  obtain ⟨hv, hf, hs, hc, hp, hps⟩ :=
    (handle_inserted_iff sol closeOf chat user uname text now picks picks' p).mp h
  constructor
  · unfold handle_contract_address
    rw [h2]
    subst hps
    subst hp
    simp [hv, List.find?_append, hf]
  · intro s3 c3 ch3 u3 un3 t3 n3 ps3 hu
    unfold handle_contract_address
    cases hv3 : is_valid_solana_address (pyStrip t3) with
    | false => simpa [hv3] using hu
    | true =>
      cases hf3 : ps3.find?
          (fun q => q.chat_id == ch3 && q.mint_address == pyStrip t3) with
      | some q => simpa [hv3, hf3] using hu
      | none =>
        by_cases hs3 : s3 ≤ 0
        · simpa [hv3, hf3, hs3] using hu
        · by_cases hc3 : c3 (pyStrip t3) ≤ 0
          · simpa [hv3, hf3, hs3, hc3] using hu
          · simp only [hv3, hf3, hs3, hc3, Bool.true_eq_false, if_false, if_neg]
            refine List.pairwise_append.mpr ⟨hu, List.pairwise_singleton _ _, ?_⟩
            intro a ha b hb
            simp only [List.mem_singleton] at hb
            subst hb
            rintro ⟨hchat, hmint⟩
            have hnone := List.find?_eq_none.mp hf3 a ha
            apply hnone
            simp only [Bool.and_eq_true, beq_iff_eq]
            exact ⟨hchat, hmint⟩

/-- Witness for C5 at a concrete input: the second submission of the same
address in the same chat is refused even though its price oracle reads
differ, and the store stays `[c1pick]`. -/
theorem c5_duplicate_key_and_uniqueness_witness :
    handle_contract_address 150 (fun _ => 1/10000) 1 2 "u" c1addr 0 []
        = (.inserted c1pick, [c1pick])
      ∧ handle_contract_address 0 (fun _ => 0) 1 3 "v" c1addr 1 [c1pick]
          = (.alreadyShilled, [c1pick])
      ∧ UniquePicks (handle_contract_address 150 (fun _ => 1/10000) 1 2 "u"
          c1addr 0 []).2 := by
  have hpk : c1pick =
      { chat_id := 1, user_id := 2, username := "u",
        mint_address := pyStrip c1addr,
        cost_basis_usd := 1/2 * 150,
        num_tokens := 1/2 / ((fun _ : String => (1:ℚ)/10000) (pyStrip c1addr)),
        created_at := 0 } := rfl
  have h : handle_contract_address 150 (fun _ => 1/10000) 1 2 "u" c1addr 0 []
      = (.inserted c1pick, [c1pick]) :=
    (handle_inserted_iff 150 (fun _ => 1/10000) 1 2 "u" c1addr 0 [] [c1pick]
      c1pick).mpr ⟨by decide, rfl, by norm_num, by norm_num, hpk, by simp⟩
  have hdup := c5_duplicate_key_and_uniqueness 150 0 (fun _ => 1/10000)
    (fun _ => 0) 1 2 3 "u" "v" c1addr c1addr 0 1 [] [c1pick] c1pick h rfl
  exact ⟨h, hdup.1, hdup.2 150 (fun _ => 1/10000) 1 2 "u" c1addr 0 []
    List.Pairwise.nil⟩

/-- C10: with no stored positions for the requesting user in the chat,
`share_command` answers `noPositions` for every value of the reference
price, in particular when market data is unavailable: the emptiness check
is decided before the price is consulted. -/
theorem c10_share_no_positions_before_price (sol : ℚ) (closeOf : String → ℚ)
    (chat user : Int) (uname : String) (picks : List Pick)
    (h : picks.filter (fun p => p.chat_id == chat && p.user_id == user) = []) :
    share_command sol closeOf chat user uname picks = .noPositions := by
  unfold share_command
  simp [h]

/-- Witness for C10 at a concrete input: the store holds a pick of another
chat, the reference price is the unavailable sentinel 0, and the reply is
still `noPositions`. -/
theorem c10_share_no_positions_before_price_witness :
    ([c1pick].filter (fun p => p.chat_id == 2 && p.user_id == 2) = [])
      ∧ share_command 0 (fun _ => 0) 2 2 "u" [c1pick] = .noPositions := by
  have hf : [c1pick].filter (fun p => p.chat_id == 2 && p.user_id == 2) = [] := by
    decide
  exact ⟨hf, c10_share_no_positions_before_price 0 (fun _ => 0) 2 2 "u" [c1pick] hf⟩

/-- C2: every board produced by the two leaderboard commands is sorted by
pnl in non-increasing order, holds at most ten entries, carries the
consecutive ranks 1, 2, ..., and lists entries of equal pnl exactly in
their stored (insertion) order: the tied rows of the output are an initial
segment of the tied rows of the valued input, unchanged in order. -/
theorem c2_leaderboard_ranking (sol : ℚ) (closeOf : String → ℚ)
    (balancesOf : String → List BalanceInfo) (chat chatw : Int)
    (picks : List Pick) (wallets : List WalletEntry)
    (o : List (Nat × TokenRow)) (ow : List (Nat × WalletRow))
    (h1 : leaderboard_command sol closeOf chat picks = .board o)
    (h2 : sniper_leaderboard_command sol balancesOf chatw wallets = .board ow) :
    ((o.map Prod.snd).Pairwise (fun a b => b.pnl ≤ a.pnl)
      ∧ o.length ≤ 10
      ∧ o.map Prod.fst = List.range' 1 o.length
      ∧ (∀ v : ℚ, (o.map Prod.snd).filter (fun r => decide (r.pnl = v))
          = (((picks.filter (fun p => p.chat_id == chat)).map
                (tokenRow sol closeOf)).filter
                (fun r => decide (r.pnl = v))).take
              ((o.map Prod.snd).filter (fun r => decide (r.pnl = v))).length))
    ∧ ((ow.map Prod.snd).Pairwise (fun a b => b.pnl_usd ≤ a.pnl_usd)
      ∧ ow.length ≤ 10
      ∧ ow.map Prod.fst = List.range' 1 ow.length
      ∧ (∀ v : ℚ, (ow.map Prod.snd).filter (fun r => decide (r.pnl_usd = v))
          = (((wallets.filter (fun w => w.chat_id == chatw)).map
                (walletRow balancesOf)).filter
                (fun r => decide (r.pnl_usd = v))).take
              ((ow.map Prod.snd).filter (fun r => decide (r.pnl_usd = v))).length)) := by
  have extract1 : o = leaderboardRank (fun r : TokenRow => r.pnl)
      ((picks.filter (fun p => p.chat_id == chat)).map (tokenRow sol closeOf)) := by
    unfold leaderboard_command at h1
    by_cases hs : sol ≤ 0
    · simp [hs] at h1
    · by_cases he : (picks.filter (fun p => p.chat_id == chat)).isEmpty = true
      · simp [hs, he] at h1
      · simp only [if_neg hs, he, Bool.false_eq_true, if_false,
          LeaderboardReply.board.injEq] at h1
        exact h1.symm
  have extract2 : ow = leaderboardRank (fun r : WalletRow => r.pnl_usd)
      ((wallets.filter (fun w => w.chat_id == chatw)).map (walletRow balancesOf)) := by
    unfold sniper_leaderboard_command at h2
    by_cases hs : sol ≤ 0
    · simp [hs] at h2
    · by_cases he : (wallets.filter (fun w => w.chat_id == chatw)).isEmpty = true
      · simp [hs, he] at h2
      · simp only [if_neg hs, he, Bool.false_eq_true, if_false,
          LeaderboardReply.board.injEq] at h2
        exact h2.symm
  subst extract1
  subst extract2
  constructor
  · refine ⟨leaderboardRank_snd_pairwise _ _, leaderboardRank_length_le _ _,
      leaderboardRank_map_fst _ _, ?_⟩
    intro v
    refine leaderboardRank_filter_take _ _ _ ?_
    intro a b ha hb
    have ha' : a.pnl = v := of_decide_eq_true ha
    have hb' : b.pnl = v := of_decide_eq_true hb
    exact le_of_eq (hb'.trans ha'.symm)
  · refine ⟨leaderboardRank_snd_pairwise _ _, leaderboardRank_length_le _ _,
      leaderboardRank_map_fst _ _, ?_⟩
    intro v
    refine leaderboardRank_filter_take _ _ _ ?_
    intro a b ha hb
    have ha' : a.pnl_usd = v := of_decide_eq_true ha
    have hb' : b.pnl_usd = v := of_decide_eq_true hb
    exact le_of_eq (hb'.trans ha'.symm)

/-- A registered wallet used as concrete input. -/
def c2wallet : WalletEntry :=
  { chat_id := 1, user_id := 2, username := "u", wallet_address := c1addr,
    start_usd_value := 75, created_at := 0 }

/-- Witness for C2 at a concrete input: singleton boards of both kinds. -/
theorem c2_leaderboard_ranking_witness :
    leaderboard_command 150 (fun _ => 0) 1 [c1pick]
        = .board [(1, tokenRow 150 (fun _ => 0) c1pick)]
      ∧ sniper_leaderboard_command 150 (fun _ => []) 1 [c2wallet]
        = .board [(1, walletRow (fun _ => []) c2wallet)]
      ∧ ([(1, tokenRow 150 (fun _ => 0) c1pick)].map Prod.snd).Pairwise
          (fun a b => b.pnl ≤ a.pnl)
      ∧ [(1, tokenRow 150 (fun _ => 0) c1pick)].length ≤ 10
      ∧ [(1, tokenRow 150 (fun _ => 0) c1pick)].map Prod.fst
          = List.range' 1 [(1, tokenRow 150 (fun _ => 0) c1pick)].length
      ∧ [(1, walletRow (fun _ => []) c2wallet)].map Prod.fst
          = List.range' 1 [(1, walletRow (fun _ => []) c2wallet)].length := by
  have hfil : [c1pick].filter (fun p => p.chat_id == 1) = [c1pick] := by
    simp [c1pick]
  have h1 : leaderboard_command 150 (fun _ => 0) 1 [c1pick]
      = .board [(1, tokenRow 150 (fun _ => 0) c1pick)] := by
    unfold leaderboard_command
    rw [if_neg (by norm_num : ¬ (150:ℚ) ≤ 0), hfil]
    simp [leaderboardRank, pySortDescBy, withRanks, List.range']
  have hfilw : [c2wallet].filter (fun w => w.chat_id == 1) = [c2wallet] := by
    simp [c2wallet]
  have h2 : sniper_leaderboard_command 150 (fun _ => []) 1 [c2wallet]
      = .board [(1, walletRow (fun _ => []) c2wallet)] := by
    unfold sniper_leaderboard_command
    rw [if_neg (by norm_num : ¬ (150:ℚ) ≤ 0), hfilw]
    simp [leaderboardRank, pySortDescBy, withRanks, List.range']
  have hc := c2_leaderboard_ranking 150 (fun _ => 0) (fun _ => []) 1 1
    [c1pick] [c2wallet] [(1, tokenRow 150 (fun _ => 0) c1pick)]
    [(1, walletRow (fun _ => []) c2wallet)] h1 h2
  exact ⟨h1, h2, hc.1.1, hc.1.2.1, hc.1.2.2.1, hc.2.2.2.1⟩

/-- A stored pick used for the C3 scenario: cost basis 75, 5000 tokens. -/
def c3pick : Pick :=
  { chat_id := 1, user_id := 2, username := "u", mint_address := "m",
    cost_basis_usd := 75, num_tokens := 5000, created_at := 0 }

/-- Counterexample to C3 as stated: a trade-price read that returns the
negative sentinel -1 (which is "0 or less") is NOT treated as 0 — the item
is valued with the negative price itself, so its pnl is
5000 * (-1 * 150) - 75 = -750075, not -cost_basis_usd = -75. -/
theorem c3_negative_price_counterexample :
    (fun _ : String => (-1 : ℚ)) "m" ≤ 0
      ∧ leaderboard_command 150 (fun _ => (-1 : ℚ)) 1 [c3pick]
          = .board [(1, tokenRow 150 (fun _ => (-1 : ℚ)) c3pick)]
      ∧ (tokenRow 150 (fun _ => (-1 : ℚ)) c3pick).pnl = -750075
      ∧ -c3pick.cost_basis_usd = -75
      ∧ (tokenRow 150 (fun _ => (-1 : ℚ)) c3pick).pnl ≠ -c3pick.cost_basis_usd := by
  refine ⟨by norm_num, ?_, ?_, ?_, ?_⟩
  · have hfil : [c3pick].filter (fun p => p.chat_id == 1) = [c3pick] := by
      simp [c3pick]
    unfold leaderboard_command
    rw [if_neg (by norm_num : ¬ (150:ℚ) ≤ 0), hfil]
    simp [leaderboardRank, pySortDescBy, withRanks, List.range']
  · simp only [tokenRow, c3pick]
    norm_num
  · simp [c3pick]
  · simp only [tokenRow, c3pick]
    norm_num

/-- C3 (amended): during a token-leaderboard pass with positive reference
price, a stored position whose live trade-price read returns exactly 0 is
valued with live price 0, yielding pnl = -cost_basis_usd for that item; no
per-item read aborts the pass — every stored position of the chat
contributes exactly one row.  (A negative trade-price return, by contrast,
is used as-is in the valuation; see the counterexample.) -/
theorem c3_zero_price_degrades_item (sol : ℚ) (closeOf : String → ℚ)
    (chat : Int) (picks : List Pick) (hsol : 0 < sol)
    (hne : (picks.filter (fun p => p.chat_id == chat)).isEmpty = false) :
    (∀ p : Pick, closeOf p.mint_address = 0 →
        (tokenRow sol closeOf p).pnl = -p.cost_basis_usd)
      ∧ leaderboard_command sol closeOf chat picks
          = .board (leaderboardRank (fun r => r.pnl)
              ((picks.filter (fun p => p.chat_id == chat)).map
                (tokenRow sol closeOf)))
      ∧ (pySortDescBy (fun r : TokenRow => r.pnl)
            ((picks.filter (fun p => p.chat_id == chat)).map
              (tokenRow sol closeOf))).length
          = (picks.filter (fun p => p.chat_id == chat)).length := by
  refine ⟨?_, ?_, ?_⟩
  · intro p hp
    simp [tokenRow, hp]
  · unfold leaderboard_command
    rw [if_neg (not_le.mpr hsol)]
    simp [hne]
  · rw [pySortDescBy_length]
    simp

/-- Witness for the amended C3 at a concrete input. -/
theorem c3_zero_price_degrades_item_witness :
    (0:ℚ) < 150
      ∧ ([c3pick].filter (fun p => p.chat_id == 1)).isEmpty = false
      ∧ (tokenRow 150 (fun _ => 0) c3pick).pnl = -c3pick.cost_basis_usd
      ∧ leaderboard_command 150 (fun _ => 0) 1 [c3pick]
          = .board (leaderboardRank (fun r => r.pnl)
              (([c3pick].filter (fun p => p.chat_id == 1)).map
                (tokenRow 150 (fun _ => 0))))
      ∧ (pySortDescBy (fun r : TokenRow => r.pnl)
            (([c3pick].filter (fun p => p.chat_id == 1)).map
              (tokenRow 150 (fun _ => 0)))).length
          = ([c3pick].filter (fun p => p.chat_id == 1)).length := by
  have hsol : (0:ℚ) < 150 := by norm_num
  have hne : ([c3pick].filter (fun p => p.chat_id == 1)).isEmpty = false := by
    simp [c3pick]
  have hc := c3_zero_price_degrades_item 150 (fun _ => 0) 1 [c3pick] hsol hne
  exact ⟨hsol, hne, hc.1 c3pick rfl, hc.2.1, hc.2.2⟩

/-- A 44-character string: 43 valid base-58 characters and a trailing
newline. -/
def c6bad : String := String.mk (List.replicate 43 '1' ++ ['\n'])

/-- Counterexample to C6 as stated: `c6bad` contains a character outside
the base-58 alphabet (its trailing newline), yet the validator accepts it,
because Python's `$` anchor also matches just before a trailing newline.
So "valid iff length 43 or 44 and every character base-58" fails. -/
theorem c6_trailing_newline_counterexample :
    is_valid_solana_address c6bad = true
      ∧ c6bad.length = 44
      ∧ c6bad.data.all isBase58Char = false := by
  decide

/-- Exact semantics of the Python regex match on a character list. -/
theorem pyMatchBase58Line_iff (s : List Char) :
    pyMatchBase58Line s = true ↔
      ((s ≠ [] ∧ s.all isBase58Char = true)
        ∨ (s.getLast? = some '\n' ∧ s.dropLast ≠ []
            ∧ s.dropLast.all isBase58Char = true)) := by
  unfold pyMatchBase58Line
  by_cases h : s.getLast? = some '\n'
  · rw [if_pos h]
    constructor
    · intro hlhs
      simp only [Bool.and_eq_true, Bool.not_eq_true', List.isEmpty_eq_false] at hlhs
      right
      exact ⟨h, by simpa using hlhs.1, hlhs.2⟩
    · rintro (⟨hne, hall⟩ | ⟨-, hne, hall⟩)
      · exfalso
        have hmem : '\n' ∈ s := List.mem_of_getLast?_eq_some h
        have := List.all_eq_true.mp hall '\n' hmem
        simp [isBase58Char] at this
      · simp only [Bool.and_eq_true, Bool.not_eq_true']
        exact ⟨by simpa using hne, hall⟩
  · rw [if_neg h]
    constructor
    · intro hlhs
      simp only [Bool.and_eq_true, Bool.not_eq_true'] at hlhs
      left
      exact ⟨by simpa using hlhs.1, hlhs.2⟩
    · rintro (⟨hne, hall⟩ | ⟨hlast, -, -⟩)
      · simp only [Bool.and_eq_true, Bool.not_eq_true']
        exact ⟨by simpa using hne, hall⟩
      · exact absurd hlast h

/-- C6 (amended): the validator accepts exactly the strings of length 43
or 44 that either consist entirely of base-58 characters, or consist of
base-58 characters followed by one final newline (an artifact of `$`
matching before a trailing newline in Python). -/
theorem c6_validator_characterization (s : String) :
    is_valid_solana_address s = true ↔
      ((s.length = 43 ∨ s.length = 44)
        ∧ (s.data.all isBase58Char = true
            ∨ (s.data.getLast? = some '\n'
                ∧ s.data.dropLast.all isBase58Char = true))) := by
  unfold is_valid_solana_address
  by_cases hlen : s.length = 43 ∨ s.length = 44
  · rw [if_pos hlen, pyMatchBase58Line_iff]
    have hlength : s.data.length = s.length := rfl
    have hne : s.data ≠ [] := by
      intro h0
      rw [h0] at hlength
      simp at hlength
      omega
    have hne2 : s.data.dropLast ≠ [] := by
      intro h0
      have h1 := congrArg List.length h0
      rw [List.length_dropLast, hlength] at h1
      simp at h1
      omega
    simp [hne, hne2, hlen]
  · rw [if_neg hlen]
    simp [hlen]

/-- The running-total loop over holdings equals a sum over the mapped
list. -/
theorem foldl_add_map_sum (f : β → ℚ) (a : ℚ) (l : List β) :
    l.foldl (fun acc t => acc + f t) a = a + (l.map f).sum := by
  induction l generalizing a with
  | nil => simp
  | cons hd tl ih => simp [ih, add_assoc]

/-- C7: the wallet valuation used by `sniper_leaderboard_command` computes
`net_worth_usd` as the sum of `balance * value` over the holdings snapshot
and `pnl_usd` as that sum minus the frozen `start_usd_value`; with
`start_usd_value = 75` and holdings `[(1000, 1/20), (2, 10)]` this yields
net worth 70 and pnl -5. -/
theorem c7_wallet_valuation :
    (∀ (balancesOf : String → List BalanceInfo) (w : WalletEntry),
        (walletRow balancesOf w).net_worth_usd
            = ((balancesOf w.wallet_address).map
                (fun t => t.balance * t.value)).sum
          ∧ (walletRow balancesOf w).pnl_usd
            = ((balancesOf w.wallet_address).map
                (fun t => t.balance * t.value)).sum - w.start_usd_value)
      ∧ (walletRow (fun _ => [⟨1000, 1/20⟩, ⟨2, 10⟩]) c2wallet).net_worth_usd = 70
      ∧ (walletRow (fun _ => [⟨1000, 1/20⟩, ⟨2, 10⟩]) c2wallet).pnl_usd = -5 := by
  refine ⟨fun balancesOf w => ⟨?_, ?_⟩, ?_, ?_⟩
  · simp [walletRow, foldl_add_map_sum]
  · simp [walletRow, foldl_add_map_sum]
  · simp only [walletRow, List.foldl]
    norm_num
  · simp only [walletRow, List.foldl, c2wallet]
    norm_num

/-- C9: entering `c1addr` at reference price 150 and trade price 1/10000
stores cost_basis_usd = 75 and num_tokens = 5000 exactly, and a later
valuation at the same two prices yields pnl = 0 exactly, both in the
leaderboard valuation (`tokenRow`) and in the share valuation
(`pickPnl`). -/
theorem c9_zero_drift_scenario :
    handle_contract_address 150 (fun _ => 1/10000) 1 2 "u" c1addr 0 []
        = (.inserted c1pick, [c1pick])
      ∧ c1pick.cost_basis_usd = 75
      ∧ c1pick.num_tokens = 5000
      ∧ (tokenRow 150 (fun _ => 1/10000) c1pick).pnl = 0
      ∧ pickPnl 150 (fun _ => 1/10000) c1pick = 0 := by
  have hpk : c1pick =
      { chat_id := 1, user_id := 2, username := "u",
        mint_address := pyStrip c1addr,
        cost_basis_usd := 1/2 * 150,
        num_tokens := 1/2 / ((fun _ : String => (1:ℚ)/10000) (pyStrip c1addr)),
        created_at := 0 } := rfl
  have h : handle_contract_address 150 (fun _ => 1/10000) 1 2 "u" c1addr 0 []
      = (.inserted c1pick, [c1pick]) :=
    (handle_inserted_iff 150 (fun _ => 1/10000) 1 2 "u" c1addr 0 [] [c1pick]
      c1pick).mpr ⟨by decide, rfl, by norm_num, by norm_num, hpk, by simp⟩
  refine ⟨h, by norm_num [c1pick], by norm_num [c1pick], ?_, ?_⟩
  · simp only [tokenRow, c1pick]
    norm_num
  · simp only [pickPnl, c1pick]
    norm_num

/-- Unicode scalar values are below 0x110000. -/
theorem char_toNat_lt (c : Char) : c.toNat < 1114112 := by
  rcases c.valid with h | ⟨h1, h2⟩
  · exact Nat.lt_trans h (by norm_num)
  · exact h2

/-- Every UTF-8 byte is below 256. -/
theorem utf8Bytes_lt (c : Char) : ∀ b ∈ utf8Bytes c, b < 256 := by
  intro b hb
  have hval := char_toNat_lt c
  unfold utf8Bytes at hb
  by_cases h1 : c.toNat < 128
  · rw [if_pos h1] at hb
    simp only [List.mem_singleton] at hb
    omega
  · rw [if_neg h1] at hb
    by_cases h2 : c.toNat < 2048
    · rw [if_pos h2] at hb
      simp only [List.mem_cons, List.mem_singleton, List.not_mem_nil, or_false] at hb
      rcases hb with hb | hb <;> omega
    · rw [if_neg h2] at hb
      by_cases h3 : c.toNat < 65536
      · rw [if_pos h3] at hb
        simp only [List.mem_cons, List.mem_singleton, List.not_mem_nil, or_false] at hb
        rcases hb with hb | hb | hb <;> omega
      · rw [if_neg h3] at hb
        simp only [List.mem_cons, List.mem_singleton, List.not_mem_nil, or_false] at hb
        rcases hb with hb | hb | hb | hb <;> omega

/-- Hexadecimal digits are in the safe output alphabet. -/
theorem hexUpper_safe : ∀ n, n < 16 → isQuoteSafe (hexUpper n) = true := by
  decide

/-- Every character emitted by the percent-encoder is either a safe
character or the escape introducer `%`: the encoding is total and no other
character can reach the output. -/
theorem pyQuote_output_alphabet (s : String) :
    ∀ c ∈ (pyQuote s).data, isQuoteSafe c = true ∨ c = '%' := by
  intro c hc
  have hc' : c ∈ s.data.flatMap (fun c =>
      if isQuoteSafe c then [c]
      else (utf8Bytes c).flatMap
        (fun b => ['%', hexUpper (b / 16), hexUpper (b % 16)])) := hc
  rw [List.mem_flatMap] at hc'
  obtain ⟨a, ha, hmem⟩ := hc'
  by_cases hsafe : isQuoteSafe a
  · rw [if_pos hsafe] at hmem
    simp only [List.mem_singleton] at hmem
    subst hmem
    exact Or.inl hsafe
  · rw [if_neg hsafe] at hmem
    rw [List.mem_flatMap] at hmem
    obtain ⟨b, hb, hmem⟩ := hmem
    have hblt : b < 256 := utf8Bytes_lt a b hb
    simp only [List.mem_cons, List.mem_singleton, List.not_mem_nil, or_false] at hmem
    rcases hmem with h1 | h1 | h1
    · exact Or.inr h1
    · subst h1
      exact Or.inl (hexUpper_safe (b / 16) (by omega))
    · subst h1
      exact Or.inl (hexUpper_safe (b % 16) (by omega))

/-- No reserved query character is in the safe alphabet, and none equals
the escape introducer. -/
theorem queryReservedChars_not_safe :
    ∀ c ∈ queryReservedChars, isQuoteSafe c = false ∧ c ≠ '%' := by
  decide

/-- C8: with at least one stored position for the user and an available
reference price, the share reply is the tweet link whose text is one line
per position of the form `<mint> => <signed-$-amount>`, followed by a
total line carrying the sum of all per-position pnl values (between the
header and the hashtag footer the code also emits), the whole text
percent-encoded; the encoder is total, its output uses only unreserved
characters, `/` and `%`, so every reserved character of a URL query value
is escaped. -/
theorem c8_share_text_structure_and_encoding (sol : ℚ) (closeOf : String → ℚ)
    (chat user : Int) (uname : String) (picks : List Pick)
    (hne : picks.filter (fun p => p.chat_id == chat && p.user_id == user) ≠ [])
    (hsol : 0 < sol) :
    share_command sol closeOf chat user uname picks
        = .link ("https://twitter.com/intent/tweet?text=" ++ pyQuote (
            uname ++ apos ++ "s Picks (Chat " ++ toString chat ++ "):\n\n"
            ++ String.intercalate "\n"
                ((picks.filter (fun p => p.chat_id == chat && p.user_id == user)).map
                  (fun p => p.mint_address ++ " => "
                    ++ signedMoney (pickPnl sol closeOf p)))
            ++ "\n\nTotal PnL: "
            ++ signedMoney
                (((picks.filter (fun p => p.chat_id == chat && p.user_id == user)).map
                  (pickPnl sol closeOf)).sum)
            ++ "\nShared via #SnipeChecksBot"))
      ∧ (∀ s : String, ∀ c ∈ (pyQuote s).data, isQuoteSafe c = true ∨ c = '%')
      ∧ (∀ s : String, ∀ c ∈ queryReservedChars, c ∉ (pyQuote s).data) := by
  refine ⟨?_, fun s => pyQuote_output_alphabet s, ?_⟩
  · unfold share_command
    have he : (picks.filter (fun p => p.chat_id == chat && p.user_id == user)).isEmpty
        = false := by
      simpa using hne
    simp only [he, Bool.false_eq_true, if_false, if_neg (not_le.mpr hsol)]
    rw [foldl_add_map_sum (pickPnl sol closeOf) 0
      (picks.filter (fun p => p.chat_id == chat && p.user_id == user)), zero_add]
  · intro s c hcres hcmem
    obtain ⟨hnotsafe, hnotpct⟩ := queryReservedChars_not_safe c hcres
    rcases pyQuote_output_alphabet s c hcmem with h | h
    · rw [hnotsafe] at h
      exact Bool.false_ne_true h
    · exact hnotpct h

/-- Witness for C8 at a concrete input: one stored pick for the user,
reference price 150, trade price 0. -/
theorem c8_share_text_structure_and_encoding_witness :
    ([c1pick].filter (fun p => p.chat_id == 1 && p.user_id == 2) ≠ [])
      ∧ (0:ℚ) < 150
      ∧ share_command 150 (fun _ => 0) 1 2 "u" [c1pick]
          = .link ("https://twitter.com/intent/tweet?text=" ++ pyQuote (
              "u" ++ apos ++ "s Picks (Chat " ++ toString (1 : Int) ++ "):\n\n"
              ++ String.intercalate "\n"
                  (([c1pick].filter (fun p => p.chat_id == 1 && p.user_id == 2)).map
                    (fun p => p.mint_address ++ " => "
                      ++ signedMoney (pickPnl 150 (fun _ => 0) p)))
              ++ "\n\nTotal PnL: "
              ++ signedMoney
                  ((([c1pick].filter (fun p => p.chat_id == 1 && p.user_id == 2)).map
                    (pickPnl 150 (fun _ => 0))).sum)
              ++ "\nShared via #SnipeChecksBot"))
      ∧ (isQuoteSafe '%' = true ∨ '%' = '%')
      ∧ ('&' ∉ (pyQuote "a&b").data) := by
  have hne : [c1pick].filter (fun p => p.chat_id == 1 && p.user_id == 2) ≠ [] := by
    simp [c1pick]
  have hsol : (0:ℚ) < 150 := by norm_num
  have hc := c8_share_text_structure_and_encoding 150 (fun _ => 0) 1 2 "u"
    [c1pick] hne hsol
  exact ⟨hne, hsol, hc.1, hc.2.1 "&" '%' (by decide), hc.2.2 "a&b" '&' (by decide)⟩
